import Mathlib

/-!
Shallow embedding of the attendance-reconciliation core of
`src/SheetUpdate.gs` (Google Apps Script).

Modelling choices:
* JavaScript `Date` values are modelled as `Int` milliseconds since the
  epoch, with the locale fixed to UTC; `toDateString` equality becomes
  equality of the floor-division day number, and `getHours`/`getMinutes`
  are extracted from the millisecond-of-day.
* JavaScript `Map`s (which preserve insertion order, and on `set` of an
  existing key update the value in place) are modelled as association
  lists `List (String × α)` with order-preserving update.
* The anonymity field of a submission is modelled as a `String`; its JS
  truthiness is non-emptiness.
* Numeric point values are modelled as `Int`; JS `||` treats `0` as falsy.
-/

namespace SheetUpdate

/-- Models `CONFIG.TOLERANCE_MINUTES` from the script. -/
def TOLERANCE_MINUTES : Int := 30

/-- Models `CONFIG.DEFAULT_POINTS` from the script. -/
def DEFAULT_POINTS : Int := 1

def msPerMinute : Int := 60000

def msPerHour : Int := 3600000

def msPerDay : Int := 86400000

/-- Calendar day number of a timestamp (models `Date.toDateString`
equality classes, UTC locale). -/
def dayOf (t : Int) : Int := Int.fdiv t msPerDay

/-- Millisecond of the day of a timestamp. -/
def msOfDay (t : Int) : Int := Int.fmod t msPerDay

/-- Models JS `Date.getHours` (UTC locale). -/
def hoursOf (t : Int) : Int := Int.fdiv (msOfDay t) msPerHour

/-- Models JS `Date.getMinutes` (UTC locale). -/
def minutesOf (t : Int) : Int := Int.fdiv (Int.fmod (msOfDay t) msPerHour) msPerMinute

/-- The instant obtained by anchoring the hours/minutes of time-of-day
value `tod` onto the calendar date of `d`, seconds and milliseconds
zeroed; models `new Date(evDate)` followed by
`setHours(t.getHours(), t.getMinutes(), 0, 0)`. -/
def anchorInstant (d tod : Int) : Int :=
  dayOf d * msPerDay + hoursOf tod * msPerHour + minutesOf tod * msPerMinute

/-- Models `isValidSubmission(timestamp, eventDate, startTime, endTime, toleranceMinutes)`
(lines 253-280): same calendar date, and timestamp within
[start-instant − tolerance, end-instant + tolerance], both bounds inclusive. -/
def isValidSubmission (timestamp eventDate startTime endTime toleranceMinutes : Int) : Bool :=
  if dayOf timestamp = dayOf eventDate then
    let startDateTime := anchorInstant eventDate startTime
    let endDateTime := anchorInstant eventDate endTime
    let toleranceMs := toleranceMinutes * msPerMinute
    decide (startDateTime - toleranceMs ≤ timestamp ∧ timestamp ≤ endDateTime + toleranceMs)
  else
    false

/-- Models `extractNetID(email)` (line 287-289): `email.split('@')[0]`, i.e. the
characters before the first `'@'` (the whole string when there is none). -/
def extractNetID (email : String) : String :=
  String.mk (email.data.takeWhile (fun c => c ≠ '@'))

/-- Character-list model of JS `String.toLowerCase` (ASCII). -/
def strToLower (s : String) : String := String.mk (s.data.map Char.toLower)

/-- Character-list model of JS `String.includes`. -/
def strIncludes (s pat : String) : Bool :=
  (List.range (s.data.length + 1)).any (fun i => pat.data.isPrefixOf (s.data.drop i))

/-- The anonymity expression of lines 358-359:
`response.anonymous && !response.anonymous.toString().toLowerCase().includes('yes')`,
with JS truthiness of a string modelled as non-emptiness. -/
def computeAnonymous (anonymous : String) : Bool :=
  anonymous ≠ "" && !(strIncludes (strToLower anonymous) "yes")

/-- An event row (`getEvents`): date, start/end time-of-day, name, type, code. -/
structure Event where
  date : Int
  startTime : Int
  endTime : Int
  eventName : String
  eventType : String
  eventCode : String
deriving DecidableEq

def defaultEvent : Event := ⟨0, 0, 0, "", "", ""⟩

/-- A form response row (`getFormResponses`). -/
structure Response where
  timestamp : Int
  email : String
  eventCode : String
  firstName : String
  lastName : String
  anonymous : String
deriving DecidableEq

/-- A member aggregate as created/updated by `processFormSubmissions`. -/
structure Member where
  firstName : String
  lastName : String
  anonymous : Bool
  points : Int
  lastUpdate : Int
deriving DecidableEq

/-- First-match association-list lookup; models `Map.get`/`Map.has`. -/
def lookupFind {α : Type} : List (String × α) → String → Option α
  | [], _ => none
  | (k', v) :: rest, k => if k' = k then some v else lookupFind rest k

/-- Order-preserving association-list update; models `Map.set`: updates the
existing entry in place, or appends a new entry at the end. -/
def setAssoc {α : Type} : List (String × α) → String → α → List (String × α)
  | [], k, v => [(k, v)]
  | (k', v') :: rest, k, v =>
      if k' = k then (k', v) :: rest else (k', v') :: setAssoc rest k v

/-- Appends index `i` to the entry list of key `k` (creating the entry if
missing); models `lookup.get(code).push(index)` after an ensure-present
`set(code, [])` in `createEventLookup`. -/
def lookupInsert : List (String × List Nat) → String → Nat → List (String × List Nat)
  | [], k, i => [(k, [i])]
  | (k', v) :: rest, k, i =>
      if k' = k then (k', v ++ [i]) :: rest else (k', v) :: lookupInsert rest k i

/-- Adds index `i` to the claimed set of key `k` (creating the entry if
missing); models `submittedEvents.get(netID).add(idx)` (a JS `Set.add`,
hence no duplicate is inserted) after an ensure-present `set(netID, new Set())`. -/
def addClaim : List (String × List Nat) → String → Nat → List (String × List Nat)
  | [], k, i => [(k, [i])]
  | (k', v) :: rest, k, i =>
      if k' = k then (k', if i ∈ v then v else v ++ [i]) :: rest
      else (k', v) :: addClaim rest k i

/-- The indexed `forEach` loop body of `createEventLookup`. -/
def buildLookup : List Event → Nat → List (String × List Nat) → List (String × List Nat)
  | [], _, acc => acc
  | e :: es, i, acc => buildLookup es (i + 1) (lookupInsert acc e.eventCode i)

/-- Models `createEventLookup(events)` (lines 206-218): maps each event code to the
list of indices of the events bearing it, in row order. -/
def createEventLookup (events : List Event) : List (String × List Nat) :=
  buildLookup events 0 []

/-- The point lookup of line 351:
`eventPoints.get(validEvent.eventType) || CONFIG.DEFAULT_POINTS`.
JS `||` falls through to the default both when the key is absent and when
the stored value is falsy (in particular `0`). -/
def getPointIncrement (eventPoints : List (String × Int)) (eventType : String) : Int :=
  match lookupFind eventPoints eventType with
  | some v => if v = 0 then DEFAULT_POINTS else v
  | none => DEFAULT_POINTS

/-- The mutable state of the `processFormSubmissions` loop: the `members`
map and the `submittedEvents` dedup tracker. -/
structure PState where
  members : List (String × Member)
  submittedEvents : List (String × List Nat)
deriving DecidableEq

/-- Claimed set of a netID in the tracker
(`submittedEvents.has(netID) ? submittedEvents.get(netID) : ∅`). -/
def claimedSetOf (st : PState) (netID : String) : List Nat :=
  (lookupFind st.submittedEvents netID).getD []

/-- The inner `for (const idx of eventIndices)` loop (lines 320-338): first
index, in catalog order, that is not already claimed by this netID and
whose event accepts the timestamp. -/
def findMatch (events : List Event) (claimedSet : List Nat) (timestamp : Int) :
    List Nat → Option Nat
  | [] => none
  | idx :: rest =>
    if idx ∈ claimedSet then findMatch events claimedSet timestamp rest
    else
      let event := events.getD idx defaultEvent
      if isValidSubmission timestamp event.date event.startTime event.endTime
          TOLERANCE_MINUTES then
        some idx
      else findMatch events claimedSet timestamp rest

/-- The per-submission matching decision of lines 307-341: `none` when the
event code is unregistered or no occurrence matches, otherwise the
`(netID, occurrence index)` pair this submission claims. -/
def matchResult (events : List Event) (eventLookup : List (String × List Nat))
    (st : PState) (r : Response) : Option (String × Nat) :=
  match lookupFind eventLookup r.eventCode with
  | none => none
  | some eventIndices =>
    let netID := extractNetID r.email
    match findMatch events (claimedSetOf st netID) r.timestamp eventIndices with
    | none => none
    | some idx => some (netID, idx)

/-- One iteration of the main loop of `processFormSubmissions`
(lines 305-367): on a match, record the claim, then create the member
(seeded from this submission) or increment its points. -/
def processOne (events : List Event) (eventLookup : List (String × List Nat))
    (eventPoints : List (String × Int)) (st : PState) (r : Response) : PState :=
  match matchResult events eventLookup st r with
  | none => st
  | some (netID, idx) =>
    let validEvent := events.getD idx defaultEvent
    let submitted := addClaim st.submittedEvents netID idx
    let pointIncrement := getPointIncrement eventPoints validEvent.eventType
    let members :=
      match lookupFind st.members netID with
      | none =>
          st.members ++
            [(netID,
              { firstName := r.firstName
                lastName := r.lastName
                anonymous := computeAnonymous r.anonymous
                points := pointIncrement
                lastUpdate := r.timestamp })]
      | some m => setAssoc st.members netID { m with points := m.points + pointIncrement }
    ⟨members, submitted⟩

/-- Models `processFormSubmissions(formResponses, events, eventLookup, eventPoints)`
(lines 299-371): fold over the responses in reverse storage order,
returning the members map. -/
def processFormSubmissions (formResponses : List Response) (events : List Event)
    (eventLookup : List (String × List Nat)) (eventPoints : List (String × Int)) :
    List (String × Member) :=
  (formResponses.reverse.foldl (processOne events eventLookup eventPoints) ⟨[], []⟩).members

/-- The sequence of `(netID, occurrence index)` claims recorded (line 348)
while processing the given responses in the given order from state `st`. -/
def claimsTrace (events : List Event) (eventLookup : List (String × List Nat))
    (eventPoints : List (String × Int)) : PState → List Response → List (String × Nat)
  | _, [] => []
  | st, r :: rs =>
    match matchResult events eventLookup st r with
    | none => claimsTrace events eventLookup eventPoints
        (processOne events eventLookup eventPoints st r) rs
    | some c => c :: claimsTrace events eventLookup eventPoints
        (processOne events eventLookup eventPoints st r) rs

/-- The claims recorded during one whole run of `processFormSubmissions`
(responses processed in reverse storage order from the empty state). -/
def runClaims (formResponses : List Response) (events : List Event)
    (eventLookup : List (String × List Nat)) (eventPoints : List (String × Int)) :
    List (String × Nat) :=
  claimsTrace events eventLookup eventPoints ⟨[], []⟩ formResponses.reverse

/-- One persisted record row, positional columns
`[NetID, FirstName, LastName, Anonymous, Points, LastUpdate]`. -/
structure RecordRow where
  netID : String
  firstName : String
  lastName : String
  anonymous : String
  points : Int
  lastUpdate : Int
deriving DecidableEq

/-- The pure output-data construction of `updatePointsRecord`
(lines 394-405): one row per member, in map insertion order, with the
anonymity flag serialized as `"Yes"`/`"No"`. -/
def buildRecordRows (members : List (String × Member)) : List RecordRow :=
  members.map (fun p =>
    { netID := p.1
      firstName := p.2.firstName
      lastName := p.2.lastName
      anonymous := if p.2.anonymous then "Yes" else "No"
      points := p.2.points
      lastUpdate := p.2.lastUpdate })

/-- Observed point total of a netID in a state (0 when the member is absent). -/
def pointsOf (st : PState) (netID : String) : Int :=
  ((lookupFind st.members netID).map Member.points).getD 0

/-- Positions (counted from `i`) of the events bearing code `c`, in catalog
order; the transparent characterization the event-lookup is checked against. -/
def codeIndicesFrom : List Event → Nat → String → List Nat
  | [], _, _ => []
  | e :: es, i, c =>
      if e.eventCode = c then i :: codeIndicesFrom es (i + 1) c
      else codeIndicesFrom es (i + 1) c

/-! ### Association-list lemmas -/

theorem lookupFind_setAssoc_self {α : Type} (l : List (String × α)) (k : String) (v : α) :
    lookupFind (setAssoc l k v) k = some v := by
  induction l with
  | nil => simp [setAssoc, lookupFind]
  | cons p rest ih =>
    obtain ⟨k', v'⟩ := p
    by_cases hk : k' = k
    · simp [setAssoc, lookupFind, hk]
    · simp [setAssoc, lookupFind, hk, ih]

theorem lookupFind_setAssoc_ne {α : Type} (l : List (String × α)) (k q : String) (v : α)
    (hq : q ≠ k) : lookupFind (setAssoc l k v) q = lookupFind l q := by
  have hqk : ¬ (k = q) := fun h => hq h.symm
  induction l with
  | nil => simp [setAssoc, lookupFind, hqk]
  | cons p rest ih =>
    obtain ⟨k', v'⟩ := p
    by_cases hk : k' = k
    · subst hk
      simp [setAssoc, lookupFind, hqk]
    · by_cases hq' : k' = q
      · simp [setAssoc, lookupFind, hk, hq', hq]
      · simp [setAssoc, lookupFind, hk, hq', ih]

theorem lookupFind_append_single_self {α : Type} (l : List (String × α)) (k : String) (v : α)
    (h : lookupFind l k = none) : lookupFind (l ++ [(k, v)]) k = some v := by
  induction l with
  | nil => simp [lookupFind]
  | cons p rest ih =>
    obtain ⟨k', v'⟩ := p
    by_cases hk : k' = k
    · simp [lookupFind, hk] at h
    · simp only [lookupFind, hk, if_neg hk] at h ⊢
      simpa [List.cons_append, lookupFind, hk] using ih h

theorem lookupFind_append_single_ne {α : Type} (l : List (String × α)) (k q : String) (v : α)
    (hq : q ≠ k) : lookupFind (l ++ [(k, v)]) q = lookupFind l q := by
  have hqk : ¬ (k = q) := fun h => hq h.symm
  induction l with
  | nil => simp [lookupFind, hqk]
  | cons p rest ih =>
    obtain ⟨k', v'⟩ := p
    by_cases hq' : k' = q
    · simp [lookupFind, hq']
    · simp [lookupFind, hq', ih]

/-! ### Claim theorems -/

/-- C7: a submission whose event code is absent from the lookup leaves the
whole state (member map and dedup tracker) unchanged. -/
theorem claim7_unknown_code_is_noop (events : List Event)
    (eventLookup : List (String × List Nat)) (eventPoints : List (String × Int))
    (st : PState) (r : Response)
    (h : lookupFind eventLookup r.eventCode = none) :
    processOne events eventLookup eventPoints st r = st := by
  simp [processOne, matchResult, h]

theorem claim7_unknown_code_is_noop_witness :
    processOne [] [] [] ⟨[], []⟩ ⟨0, "a@b.edu", "ZZZ", "f", "l", ""⟩ = ⟨[], []⟩ :=
  claim7_unknown_code_is_noop [] [] [] ⟨[], []⟩ ⟨0, "a@b.edu", "ZZZ", "f", "l", ""⟩ rfl

/-- C2: the time-window test accepts exactly when the calendar dates agree
and the timestamp lies in [start-instant − 30 min, end-instant + 30 min],
inclusive on both bounds; a 17:35 submission for an 18:00–19:00 same-day
event is accepted, a 19:31 one is rejected. -/
theorem claim2_time_window (t d st et : Int) :
    (isValidSubmission t d st et TOLERANCE_MINUTES = true ↔
      (dayOf t = dayOf d ∧
        anchorInstant d st - TOLERANCE_MINUTES * msPerMinute ≤ t ∧
        t ≤ anchorInstant d et + TOLERANCE_MINUTES * msPerMinute)) ∧
    isValidSubmission 63300000 0 64800000 68400000 TOLERANCE_MINUTES = true ∧
    isValidSubmission 70260000 0 64800000 68400000 TOLERANCE_MINUTES = false := by
  refine ⟨?_, by decide, by decide⟩
  unfold isValidSubmission
  by_cases h : dayOf t = dayOf d
  · simp [h]
  · simp [h]

/-- C5, Scenario C: of two time-valid submissions by the same netID for the
same single-occurrence code, stored chronologically, the reverse pass lets
the later timestamp claim first and seed the aggregate; the earlier one is
skipped, so the aggregate carries the later submission's identity fields
and exactly one point increment. -/
theorem claim5_scenario_c :
    processFormSubmissions
        [⟨64800000, "alice@x.edu", "C1", "A1", "L1", ""⟩,
         ⟨64860000, "alice@x.edu", "C1", "A2", "L2", "No"⟩]
        [⟨0, 64800000, 68400000, "Ev", "General", "C1"⟩]
        (createEventLookup [⟨0, 64800000, 68400000, "Ev", "General", "C1"⟩]) [] =
      [("alice", ⟨"A2", "L2", true, 1, 64860000⟩)] ∧
    runClaims
        [⟨64800000, "alice@x.edu", "C1", "A1", "L1", ""⟩,
         ⟨64860000, "alice@x.edu", "C1", "A2", "L2", "No"⟩]
        [⟨0, 64800000, 68400000, "Ev", "General", "C1"⟩]
        (createEventLookup [⟨0, 64800000, 68400000, "Ev", "General", "C1"⟩]) [] =
      [("alice", 0)] ∧
    (64800000 : Int) < 64860000 := by
  refine ⟨by decide, by decide, by decide⟩

/-- C9: the reconciliation is a pure function of its four inputs; two runs
on identical inputs yield identical member maps and identical serialized
record rows. -/
theorem claim9_deterministic (formResponses : List Response) (events : List Event)
    (eventLookup : List (String × List Nat)) (eventPoints : List (String × Int)) :
    processFormSubmissions formResponses events eventLookup eventPoints =
      processFormSubmissions formResponses events eventLookup eventPoints ∧
    buildRecordRows (processFormSubmissions formResponses events eventLookup eventPoints) =
      buildRecordRows (processFormSubmissions formResponses events eventLookup eventPoints) :=
  ⟨rfl, rfl⟩

/-- C3 counterexample: event type "General" is present in the point schedule
with value 0, yet the matched submission is credited the default 1 point,
refuting the claim that a schedule value of 0 is applied as 0. -/
theorem claim3_schedule_zero_cex :
    lookupFind [("General", (0 : Int))] "General" = some 0 ∧
    processFormSubmissions [⟨64800000, "alice@x.edu", "C1", "A1", "L1", ""⟩]
        [⟨0, 64800000, 68400000, "Ev", "General", "C1"⟩]
        (createEventLookup [⟨0, 64800000, 68400000, "Ev", "General", "C1"⟩])
        [("General", 0)] =
      [("alice", ⟨"A1", "L1", false, 1, 64800000⟩)] ∧
    (1 : Int) ≠ 0 := by
  refine ⟨by decide, by decide, by decide⟩

/-- C3 amended: every matched submission increments the member's point total
by `getPointIncrement`, which is the schedule value when the event type is
present with a non-zero (truthy) value, and the default 1 when the event
type is absent or its schedule value is 0. -/
theorem claim3_amended_point_increment (events : List Event)
    (eventLookup : List (String × List Nat)) (eventPoints : List (String × Int))
    (st : PState) (r : Response) (n : String) (i : Nat)
    (h : matchResult events eventLookup st r = some (n, i)) :
    pointsOf (processOne events eventLookup eventPoints st r) n =
      pointsOf st n + getPointIncrement eventPoints (events.getD i defaultEvent).eventType := by
  cases hm : lookupFind st.members n with
  | none =>
    simp only [processOne, h, hm, pointsOf]
    rw [lookupFind_append_single_self _ _ _ hm]
    simp
  | some m =>
    simp only [processOne, h, hm, pointsOf]
    rw [lookupFind_setAssoc_self]
    simp

theorem claim3_amended_point_increment_witness :
    matchResult [⟨0, 64800000, 68400000, "Ev", "General", "C1"⟩]
        (createEventLookup [⟨0, 64800000, 68400000, "Ev", "General", "C1"⟩])
        ⟨[], []⟩ ⟨64800000, "alice@x.edu", "C1", "A1", "L1", ""⟩ = some ("alice", 0) ∧
    pointsOf (processOne [⟨0, 64800000, 68400000, "Ev", "General", "C1"⟩]
        (createEventLookup [⟨0, 64800000, 68400000, "Ev", "General", "C1"⟩])
        [("General", 0)] ⟨[], []⟩ ⟨64800000, "alice@x.edu", "C1", "A1", "L1", ""⟩) "alice" =
      pointsOf ⟨[], []⟩ "alice" +
        getPointIncrement [("General", 0)]
          (([⟨0, 64800000, 68400000, "Ev", "General", "C1"⟩].getD 0 defaultEvent)).eventType :=
  ⟨rfl,
    claim3_amended_point_increment [⟨0, 64800000, 68400000, "Ev", "General", "C1"⟩]
      (createEventLookup [⟨0, 64800000, 68400000, "Ev", "General", "C1"⟩])
      [("General", 0)] ⟨[], []⟩ ⟨64800000, "alice@x.edu", "C1", "A1", "L1", ""⟩ "alice" 0 rfl⟩

/-- C6: a matched submission whose netID already has an aggregate changes
only that aggregate's points field (incremented by the point value); its
name, anonymity and lastUpdate fields, and every other member's aggregate,
are untouched. -/
theorem claim6_existing_member_frame (events : List Event)
    (eventLookup : List (String × List Nat)) (eventPoints : List (String × Int))
    (st : PState) (r : Response) (n : String) (i : Nat) (m : Member)
    (h : matchResult events eventLookup st r = some (n, i))
    (hm : lookupFind st.members n = some m) :
    lookupFind (processOne events eventLookup eventPoints st r).members n =
      some { m with points :=
        m.points + getPointIncrement eventPoints (events.getD i defaultEvent).eventType } ∧
    ∀ k, k ≠ n → lookupFind (processOne events eventLookup eventPoints st r).members k =
      lookupFind st.members k := by
  simp only [processOne, h, hm]
  exact ⟨lookupFind_setAssoc_self _ _ _, fun k hk => lookupFind_setAssoc_ne _ _ _ _ hk⟩

theorem claim6_existing_member_frame_witness :
    matchResult [⟨0, 64800000, 68400000, "Ev", "General", "C1"⟩]
        (createEventLookup [⟨0, 64800000, 68400000, "Ev", "General", "C1"⟩])
        ⟨[("alice", ⟨"A0", "L0", false, 5, 7⟩)], []⟩
        ⟨64800000, "alice@x.edu", "C1", "A1", "L1", ""⟩ = some ("alice", 0) ∧
    lookupFind (⟨[("alice", ⟨"A0", "L0", false, 5, 7⟩)], []⟩ : PState).members "alice" =
      some ⟨"A0", "L0", false, 5, 7⟩ ∧
    lookupFind (processOne [⟨0, 64800000, 68400000, "Ev", "General", "C1"⟩]
        (createEventLookup [⟨0, 64800000, 68400000, "Ev", "General", "C1"⟩]) []
        ⟨[("alice", ⟨"A0", "L0", false, 5, 7⟩)], []⟩
        ⟨64800000, "alice@x.edu", "C1", "A1", "L1", ""⟩).members "alice" =
      some ⟨"A0", "L0", false, 6, 7⟩ ∧
    lookupFind (processOne [⟨0, 64800000, 68400000, "Ev", "General", "C1"⟩]
        (createEventLookup [⟨0, 64800000, 68400000, "Ev", "General", "C1"⟩]) []
        ⟨[("alice", ⟨"A0", "L0", false, 5, 7⟩)], []⟩
        ⟨64800000, "alice@x.edu", "C1", "A1", "L1", ""⟩).members "bob" =
      lookupFind (⟨[("alice", ⟨"A0", "L0", false, 5, 7⟩)], []⟩ : PState).members "bob" :=
  ⟨rfl, rfl,
    (claim6_existing_member_frame [⟨0, 64800000, 68400000, "Ev", "General", "C1"⟩]
      (createEventLookup [⟨0, 64800000, 68400000, "Ev", "General", "C1"⟩]) []
      ⟨[("alice", ⟨"A0", "L0", false, 5, 7⟩)], []⟩
      ⟨64800000, "alice@x.edu", "C1", "A1", "L1", ""⟩ "alice" 0 ⟨"A0", "L0", false, 5, 7⟩
      rfl rfl).1,
    (claim6_existing_member_frame [⟨0, 64800000, 68400000, "Ev", "General", "C1"⟩]
      (createEventLookup [⟨0, 64800000, 68400000, "Ev", "General", "C1"⟩]) []
      ⟨[("alice", ⟨"A0", "L0", false, 5, 7⟩)], []⟩
      ⟨64800000, "alice@x.edu", "C1", "A1", "L1", ""⟩ "alice" 0 ⟨"A0", "L0", false, 5, 7⟩
      rfl rfl).2 "bob" (by decide)⟩

/-- C10: a newly created aggregate's anonymous flag is `computeAnonymous`
of the first-processed submission's anonymous field — true exactly when the
field is non-empty and its lowercased form does not contain "yes"; in
particular "Yes" yields false (serialized "No") and "" yields false. -/
theorem claim10_anonymous_policy (events : List Event)
    (eventLookup : List (String × List Nat)) (eventPoints : List (String × Int))
    (st : PState) (r : Response) (n : String) (i : Nat)
    (h : matchResult events eventLookup st r = some (n, i))
    (hnew : lookupFind st.members n = none) :
    lookupFind (processOne events eventLookup eventPoints st r).members n =
      some { firstName := r.firstName, lastName := r.lastName,
             anonymous := computeAnonymous r.anonymous,
             points := getPointIncrement eventPoints (events.getD i defaultEvent).eventType,
             lastUpdate := r.timestamp } ∧
    computeAnonymous "Yes" = false ∧
    computeAnonymous "" = false ∧
    buildRecordRows [("u", ⟨"f", "l", computeAnonymous "Yes", 1, 0⟩)] =
      [⟨"u", "f", "l", "No", 1, 0⟩] := by
  refine ⟨?_, by decide, by decide, by decide⟩
  simp only [processOne, h, hnew]
  exact lookupFind_append_single_self _ _ _ hnew

theorem claim10_anonymous_policy_witness :
    matchResult [⟨0, 64800000, 68400000, "Ev", "General", "C1"⟩]
        (createEventLookup [⟨0, 64800000, 68400000, "Ev", "General", "C1"⟩])
        ⟨[], []⟩ ⟨64800000, "alice@x.edu", "C1", "A1", "L1", "Yes"⟩ = some ("alice", 0) ∧
    lookupFind (processOne [⟨0, 64800000, 68400000, "Ev", "General", "C1"⟩]
        (createEventLookup [⟨0, 64800000, 68400000, "Ev", "General", "C1"⟩]) []
        ⟨[], []⟩ ⟨64800000, "alice@x.edu", "C1", "A1", "L1", "Yes"⟩).members "alice" =
      some { firstName := "A1", lastName := "L1",
             anonymous := computeAnonymous "Yes",
             points := getPointIncrement []
               (([⟨0, 64800000, 68400000, "Ev", "General", "C1"⟩].getD 0 defaultEvent)).eventType,
             lastUpdate := 64800000 } :=
  ⟨rfl,
    (claim10_anonymous_policy [⟨0, 64800000, 68400000, "Ev", "General", "C1"⟩]
      (createEventLookup [⟨0, 64800000, 68400000, "Ev", "General", "C1"⟩]) []
      ⟨[], []⟩ ⟨64800000, "alice@x.edu", "C1", "A1", "L1", "Yes"⟩ "alice" 0 rfl rfl).1⟩

/-! ### Deduplication lemmas -/

theorem findMatch_not_mem (events : List Event) (cs : List Nat) (t : Int) :
    ∀ (idxs : List Nat) (i : Nat), findMatch events cs t idxs = some i → i ∉ cs := by
  intro idxs
  induction idxs with
  | nil => intro i h; simp [findMatch] at h
  | cons idx rest ih =>
    intro i h
    simp only [findMatch] at h
    by_cases hc : idx ∈ cs
    · rw [if_pos hc] at h
      exact ih i h
    · rw [if_neg hc] at h
      by_cases hv : isValidSubmission t (events.getD idx defaultEvent).date
          (events.getD idx defaultEvent).startTime (events.getD idx defaultEvent).endTime
          TOLERANCE_MINUTES = true
      · rw [if_pos hv] at h
        cases h
        exact hc
      · rw [if_neg hv] at h
        exact ih i h

theorem matchResult_netID_and_unclaimed (events : List Event)
    (eventLookup : List (String × List Nat)) (st : PState) (r : Response)
    (n : String) (i : Nat) (h : matchResult events eventLookup st r = some (n, i)) :
    n = extractNetID r.email ∧ i ∉ claimedSetOf st n := by
  simp only [matchResult] at h
  cases hl : lookupFind eventLookup r.eventCode with
  | none => rw [hl] at h; simp at h
  | some idxs =>
    simp only [hl] at h
    cases hf : findMatch events (claimedSetOf st (extractNetID r.email)) r.timestamp idxs with
    | none => simp only [hf] at h; exact absurd h (by simp)
    | some j =>
      simp only [hf, Option.some.injEq, Prod.mk.injEq] at h
      obtain ⟨hn, hi⟩ := h
      subst hn
      subst hi
      exact ⟨rfl, findMatch_not_mem events _ r.timestamp idxs j hf⟩

theorem mem_getD_lookupFind_addClaim (l : List (String × List Nat)) (k : String) (j : Nat)
    (q : String) (i : Nat) (h : i ∈ (lookupFind l q).getD []) :
    i ∈ (lookupFind (addClaim l k j) q).getD [] := by
  induction l with
  | nil => simp [lookupFind] at h
  | cons p rest ih =>
    obtain ⟨k', v⟩ := p
    by_cases hk : k' = k
    · by_cases hq : k' = q
      · simp only [lookupFind, if_pos hq, Option.getD_some] at h
        simp only [addClaim, if_pos hk, lookupFind, if_pos hq, Option.getD_some]
        by_cases hj : j ∈ v
        · simpa [hj] using h
        · simp only [if_neg hj]
          exact List.mem_append_left _ h
      · simp only [lookupFind, if_neg hq] at h
        simp only [addClaim, if_pos hk, lookupFind, if_neg hq]
        exact h
    · by_cases hq : k' = q
      · simp only [lookupFind, if_pos hq, Option.getD_some] at h
        simp only [addClaim, if_neg hk, lookupFind, if_pos hq, Option.getD_some]
        exact h
      · simp only [lookupFind, if_neg hq] at h
        simp only [addClaim, if_neg hk, lookupFind, if_neg hq]
        exact ih h

theorem mem_getD_lookupFind_addClaim_self (l : List (String × List Nat)) (k : String)
    (i : Nat) : i ∈ (lookupFind (addClaim l k i) k).getD [] := by
  induction l with
  | nil => simp [addClaim, lookupFind]
  | cons p rest ih =>
    obtain ⟨k', v⟩ := p
    by_cases hk : k' = k
    · simp only [addClaim, if_pos hk, lookupFind, if_pos hk, Option.getD_some]
      by_cases hi : i ∈ v
      · simp [hi]
      · simp only [if_neg hi]
        exact List.mem_append_right _ (List.mem_singleton.mpr rfl)
    · simp only [addClaim, if_neg hk, lookupFind, if_neg hk]
      exact ih

theorem claimedSetOf_processOne_mono (events : List Event)
    (eventLookup : List (String × List Nat)) (eventPoints : List (String × Int))
    (st : PState) (r : Response) (q : String) (i : Nat)
    (h : i ∈ claimedSetOf st q) :
    i ∈ claimedSetOf (processOne events eventLookup eventPoints st r) q := by
  cases hm : matchResult events eventLookup st r with
  | none => simpa [processOne, hm] using h
  | some c =>
    obtain ⟨n, j⟩ := c
    simp only [processOne, hm, claimedSetOf]
    exact mem_getD_lookupFind_addClaim st.submittedEvents n j q i h

theorem processOne_claims_pair (events : List Event)
    (eventLookup : List (String × List Nat)) (eventPoints : List (String × Int))
    (st : PState) (r : Response) (n : String) (i : Nat)
    (h : matchResult events eventLookup st r = some (n, i)) :
    i ∈ claimedSetOf (processOne events eventLookup eventPoints st r) n := by
  simp only [processOne, h, claimedSetOf]
  exact mem_getD_lookupFind_addClaim_self st.submittedEvents n i

theorem claimsTrace_nodup_aux (events : List Event)
    (eventLookup : List (String × List Nat)) (eventPoints : List (String × Int)) :
    ∀ (rs : List Response) (st : PState),
      (claimsTrace events eventLookup eventPoints st rs).Nodup ∧
      ∀ c ∈ claimsTrace events eventLookup eventPoints st rs,
        c.2 ∉ claimedSetOf st c.1 := by
  intro rs
  induction rs with
  | nil => intro st; simp [claimsTrace]
  | cons r rest ih =>
    intro st
    obtain ⟨hnd, hcl⟩ := ih (processOne events eventLookup eventPoints st r)
    cases hm : matchResult events eventLookup st r with
    | none =>
      simp only [claimsTrace, hm]
      refine ⟨hnd, ?_⟩
      intro c hc hmem
      exact hcl c hc (claimedSetOf_processOne_mono events eventLookup eventPoints st r
        c.1 c.2 hmem)
    | some c0 =>
      obtain ⟨n, i⟩ := c0
      simp only [claimsTrace, hm]
      constructor
      · refine List.nodup_cons.mpr ⟨?_, hnd⟩
        intro hin
        exact hcl (n, i) hin
          (processOne_claims_pair events eventLookup eventPoints st r n i hm)
      · intro c hc
        rcases List.mem_cons.mp hc with h1 | h2
        · subst h1
          exact (matchResult_netID_and_unclaimed events eventLookup st r n i hm).2
        · intro hmem
          exact hcl c h2 (claimedSetOf_processOne_mono events eventLookup eventPoints st r
            c.1 c.2 hmem)

/-! ### Event-lookup lemmas -/

theorem getD_lookupFind_lookupInsert (l : List (String × List Nat)) (c0 : String) (i : Nat)
    (c : String) :
    (lookupFind (lookupInsert l c0 i) c).getD [] =
      if c0 = c then (lookupFind l c).getD [] ++ [i] else (lookupFind l c).getD [] := by
  induction l with
  | nil => by_cases h : c0 = c <;> simp [lookupInsert, lookupFind, h]
  | cons p rest ih =>
    obtain ⟨k', v⟩ := p
    by_cases hk : k' = c0
    · subst hk
      by_cases hq : k' = c
      · simp [lookupInsert, lookupFind, hq]
      · simp [lookupInsert, lookupFind, hq]
    · by_cases hq : k' = c
      · subst hq
        have hne : ¬ (c0 = k') := fun h => hk h.symm
        simp [lookupInsert, lookupFind, hk, hne]
      · simp [lookupInsert, lookupFind, hk, hq, ih]

theorem getD_lookupFind_buildLookup :
    ∀ (es : List Event) (i : Nat) (acc : List (String × List Nat)) (c : String),
      (lookupFind (buildLookup es i acc) c).getD [] =
        (lookupFind acc c).getD [] ++ codeIndicesFrom es i c := by
  intro es
  induction es with
  | nil => intro i acc c; simp [buildLookup, codeIndicesFrom]
  | cons e rest ih =>
    intro i acc c
    simp only [buildLookup, codeIndicesFrom]
    rw [ih, getD_lookupFind_lookupInsert]
    by_cases h : e.eventCode = c
    · simp [h, List.append_assoc]
    · simp [h]

theorem codeIndicesFrom_eq_filter :
    ∀ (es : List Event) (i : Nat) (c : String),
      codeIndicesFrom es i c =
        ((List.range es.length).filter
          (fun j => (es.getD j defaultEvent).eventCode == c)).map (fun j => j + i) := by
  intro es
  induction es with
  | nil => intro i c; simp [codeIndicesFrom]
  | cons e rest ih =>
    intro i c
    have hmap : ∀ (Y : List Nat),
        (Y.map Nat.succ).map (fun j => j + i) = Y.map (fun j => j + (i + 1)) := by
      intro Y
      rw [List.map_map]
      apply List.map_congr_left
      intro j _
      simp only [Function.comp_apply]
      omega
    rw [codeIndicesFrom, List.length_cons, List.range_succ_eq_map, List.filter_cons,
      List.filter_map]
    simp only [Function.comp_def, List.getD_cons_succ, List.getD_cons_zero]
    by_cases h : e.eventCode = c
    · have hb : (e.eventCode == c) = true := by simp [h]
      rw [if_pos hb, List.map_cons, hmap, ← ih (i + 1) c]
      simp [h]
    · have hb : ¬ ((e.eventCode == c) = true) := by simp [h]
      rw [if_neg hb, hmap, ← ih (i + 1) c]
      simp [h]

/-- C8: the code-to-occurrences lookup built by `createEventLookup` maps each
event code to the list of all catalog positions bearing that code, in
catalog order — equivalently the filter of the position range by code — so
every catalog index appears under exactly its own code. -/
theorem claim8_lookup_all_occurrences (events : List Event) (c : String) :
    (lookupFind (createEventLookup events) c).getD [] =
      (List.range events.length).filter
        (fun j => (events.getD j defaultEvent).eventCode == c) := by
  rw [createEventLookup, getD_lookupFind_buildLookup, codeIndicesFrom_eq_filter]
  simp [lookupFind]

/-- C1: across one run the recorded `(netID, occurrence index)` claims are
pairwise distinct — each pair is claimed by at most one submission, and a
pair already present in the dedup tracker is never claimed again — so at
most one submission per pair increments that member's points. -/
theorem claim1_dedup_claims_nodup (formResponses : List Response) (events : List Event)
    (eventLookup : List (String × List Nat)) (eventPoints : List (String × Int)) :
    (runClaims formResponses events eventLookup eventPoints).Nodup :=
  (claimsTrace_nodup_aux events eventLookup eventPoints formResponses.reverse ⟨[], []⟩).1

/-! ### Duplicate-pair resolution (reverse-chronological rule) -/

/-- C4 counterexample: two time-valid duplicates stored chronologically
[T1, T2]; the single resulting aggregate is seeded with the second-stored,
chronologically latest submission's name and timestamp (T2 = 64860000),
not the earliest (T1 = 64800000) — the chronologically earliest submission
does not win. -/
theorem claim4_earliest_wins_cex :
    processFormSubmissions
        [⟨64800000, "alice@x.edu", "C1", "First1", "L1", ""⟩,
         ⟨64860000, "alice@x.edu", "C1", "First2", "L2", ""⟩]
        [⟨0, 64800000, 68400000, "Ev", "General", "C1"⟩]
        (createEventLookup [⟨0, 64800000, 68400000, "Ev", "General", "C1"⟩]) [] =
      [("alice", ⟨"First2", "L2", false, 1, 64860000⟩)] ∧
    (64800000 : Int) < 64860000 ∧
    (64860000 : Int) ≠ 64800000 := by
  refine ⟨by decide, by decide, by decide⟩

/-- C4 amended: for two individually time-valid submissions by the same
member for the same single-occurrence event code, exactly one claim is
recorded, and the contributing submission is the first-processed one —
the last-stored, i.e. chronologically latest when storage is
chronological — which also seeds the aggregate. -/
theorem claim4_amended_latest_wins (events : List Event)
    (eventLookup : List (String × List Nat)) (eventPoints : List (String × Int))
    (s1 s2 : Response) (n : String) (i : Nat)
    (hn1 : extractNetID s1.email = n) (hn2 : extractNetID s2.email = n)
    (hl1 : lookupFind eventLookup s1.eventCode = some [i])
    (hl2 : lookupFind eventLookup s2.eventCode = some [i])
    (hv1 : isValidSubmission s1.timestamp (events.getD i defaultEvent).date
      (events.getD i defaultEvent).startTime (events.getD i defaultEvent).endTime
      TOLERANCE_MINUTES = true)
    (hv2 : isValidSubmission s2.timestamp (events.getD i defaultEvent).date
      (events.getD i defaultEvent).startTime (events.getD i defaultEvent).endTime
      TOLERANCE_MINUTES = true) :
    runClaims [s1, s2] events eventLookup eventPoints = [(n, i)] ∧
    processFormSubmissions [s1, s2] events eventLookup eventPoints =
      [(n, { firstName := s2.firstName, lastName := s2.lastName,
             anonymous := computeAnonymous s2.anonymous,
             points := getPointIncrement eventPoints (events.getD i defaultEvent).eventType,
             lastUpdate := s2.timestamp })] := by
  have hcs0 : claimedSetOf ⟨[], []⟩ n = [] := rfl
  have hfm2 : findMatch events [] s2.timestamp [i] = some i := by
    simp only [findMatch]
    rw [if_neg (List.not_mem_nil i), if_pos hv2]
  have hm2 : matchResult events eventLookup ⟨[], []⟩ s2 = some (n, i) := by
    simp only [matchResult, hl2, hn2, hcs0, hfm2]
  have hst1 : processOne events eventLookup eventPoints ⟨[], []⟩ s2 =
      ⟨[(n, { firstName := s2.firstName, lastName := s2.lastName,
              anonymous := computeAnonymous s2.anonymous,
              points := getPointIncrement eventPoints (events.getD i defaultEvent).eventType,
              lastUpdate := s2.timestamp })], [(n, [i])]⟩ := by
    simp only [processOne, hm2, lookupFind, addClaim, List.nil_append]
  have hcs1 : claimedSetOf
      ⟨[(n, { firstName := s2.firstName, lastName := s2.lastName,
              anonymous := computeAnonymous s2.anonymous,
              points := getPointIncrement eventPoints (events.getD i defaultEvent).eventType,
              lastUpdate := s2.timestamp })], [(n, [i])]⟩ n = [i] := by
    simp [claimedSetOf, lookupFind]
  have hfm1 : findMatch events [i] s1.timestamp [i] = none := by
    simp only [findMatch]
    rw [if_pos (List.mem_singleton.mpr rfl)]
  have hm1 : matchResult events eventLookup
      ⟨[(n, { firstName := s2.firstName, lastName := s2.lastName,
              anonymous := computeAnonymous s2.anonymous,
              points := getPointIncrement eventPoints (events.getD i defaultEvent).eventType,
              lastUpdate := s2.timestamp })], [(n, [i])]⟩ s1 = none := by
    simp only [matchResult, hl1, hn1, hcs1, hfm1]
  have hrev : ([s1, s2] : List Response).reverse = [s2, s1] := rfl
  constructor
  · rw [runClaims, hrev]
    simp only [claimsTrace, hm2, hst1, hm1]
  · rw [processFormSubmissions, hrev]
    simp only [List.foldl_cons, List.foldl_nil, hst1]
    simp only [processOne, hm1]

theorem claim4_amended_latest_wins_witness :
    runClaims
        [⟨64800000, "bob@y.edu", "C2", "B1", "M1", ""⟩,
         ⟨64860000, "bob@y.edu", "C2", "B2", "M2", ""⟩]
        [⟨0, 64800000, 68400000, "Ev", "Workshop", "C2"⟩]
        (createEventLookup [⟨0, 64800000, 68400000, "Ev", "Workshop", "C2"⟩])
        [("Workshop", 3)] = [("bob", 0)] ∧
    processFormSubmissions
        [⟨64800000, "bob@y.edu", "C2", "B1", "M1", ""⟩,
         ⟨64860000, "bob@y.edu", "C2", "B2", "M2", ""⟩]
        [⟨0, 64800000, 68400000, "Ev", "Workshop", "C2"⟩]
        (createEventLookup [⟨0, 64800000, 68400000, "Ev", "Workshop", "C2"⟩])
        [("Workshop", 3)] =
      [("bob", { firstName := "B2", lastName := "M2",
                 anonymous := computeAnonymous "",
                 points := getPointIncrement [("Workshop", 3)]
                   (([⟨0, 64800000, 68400000, "Ev", "Workshop", "C2"⟩].getD 0
                     defaultEvent)).eventType,
                 lastUpdate := 64860000 })] :=
  claim4_amended_latest_wins
    [⟨0, 64800000, 68400000, "Ev", "Workshop", "C2"⟩]
    (createEventLookup [⟨0, 64800000, 68400000, "Ev", "Workshop", "C2"⟩])
    [("Workshop", 3)]
    ⟨64800000, "bob@y.edu", "C2", "B1", "M1", ""⟩
    ⟨64860000, "bob@y.edu", "C2", "B2", "M2", ""⟩
    "bob" 0 (by decide) (by decide) (by decide) (by decide) (by decide) (by decide)

end SheetUpdate
